import Mathlib

/-!
Verification of the credential-store fixture (`samples/user_auth.py`).

The file shallowly embeds the Python module: MD5 (the `hashlib.md5(...).hexdigest()`
call), the SQL statements the program builds by string interpolation together with
the fragment of sqlite semantics they can reach, the `UserManager` methods, the two
free functions and the module-level counter.  Machine integers are modelled as `Nat`
with explicit `% 2 ^ 32` where the digest arithmetic overflows; fallible calls
return `Except`.
-/

set_option maxRecDepth 8000

namespace UserAuth

/-! ### MD5 (models `hashlib.md5(password.encode()).hexdigest()`)

`str.encode()` is UTF-8; the digest is the RFC 1321 MD5 of those bytes, printed
as 32 lowercase hex characters. -/

/-- UTF-8 encoding of one character (Python's `str.encode()`), as byte values. -/
def utf8Bytes (c : Char) : List Nat :=
  let n := c.toNat
  if n < 128 then [n]
  else if n < 2048 then [192 + n / 64, 128 + n % 64]
  else if n < 65536 then [224 + n / 4096, 128 + n / 64 % 64, 128 + n % 64]
  else [240 + n / 262144, 128 + n / 4096 % 64, 128 + n / 64 % 64, 128 + n % 64]

/-- UTF-8 bytes of a string. -/
def strBytes (s : String) : List Nat :=
  (s.data.map utf8Bytes).flatten

/-- Little-endian 8-byte encoding of a 64-bit length field. -/
def le8 (n : Nat) : List Nat :=
  [n % 256, n / 256 % 256, n / 65536 % 256, n / 16777216 % 256,
   n / 4294967296 % 256, n / 1099511627776 % 256,
   n / 281474976710656 % 256, n / 72057594037927936 % 256]

/-- MD5 padding: append `0x80`, zeros to 56 mod 64, then the bit length. -/
def padMsg (bs : List Nat) : List Nat :=
  bs ++ 128 :: List.replicate ((119 - bs.length % 64) % 64) 0
     ++ le8 (8 * bs.length % 18446744073709551616)

/-- Split into 64-byte blocks (fuel-based so that the kernel can evaluate it). -/
def chunks64 : Nat → List Nat → List (List Nat)
  | 0, _ => []
  | _, [] => []
  | fuel + 1, l => l.take 64 :: chunks64 fuel (l.drop 64)

/-- The MD5 sine-derived constant table `T[i] = floor(2^32 * abs(sin(i+1)))`. -/
def md5K : List Nat :=
  [0xd76aa478, 0xe8c7b756, 0x242070db, 0xc1bdceee,
   0xf57c0faf, 0x4787c62a, 0xa8304613, 0xfd469501,
   0x698098d8, 0x8b44f7af, 0xffff5bb1, 0x895cd7be,
   0x6b901122, 0xfd987193, 0xa679438e, 0x49b40821,
   0xf61e2562, 0xc040b340, 0x265e5a51, 0xe9b6c7aa,
   0xd62f105d, 0x02441453, 0xd8a1e681, 0xe7d3fbc8,
   0x21e1cde6, 0xc33707d6, 0xf4d50d87, 0x455a14ed,
   0xa9e3e905, 0xfcefa3f8, 0x676f02d9, 0x8d2a4c8a,
   0xfffa3942, 0x8771f681, 0x6d9d6122, 0xfde5380c,
   0xa4beea44, 0x4bdecfa9, 0xf6bb4b60, 0xbebfbc70,
   0x289b7ec6, 0xeaa127fa, 0xd4ef3085, 0x04881d05,
   0xd9d4d039, 0xe6db99e5, 0x1fa27cf8, 0xc4ac5665,
   0xf4292244, 0x432aff97, 0xab9423a7, 0xfc93a039,
   0x655b59c3, 0x8f0ccc92, 0xffeff47d, 0x85845dd1,
   0x6fa87e4f, 0xfe2ce6e0, 0xa3014314, 0x4e0811a1,
   0xf7537e82, 0xbd3af235, 0x2ad7d2bb, 0xeb86d391]

/-- Per-round left-rotation amounts. -/
def md5S (i : Nat) : Nat :=
  (([[7, 12, 17, 22], [5, 9, 14, 20], [4, 11, 16, 23], [6, 10, 15, 21]].getD
      (i / 16) []).getD (i % 4) 0)

/-- Left rotation on 32 bits. -/
def rotl32 (x s : Nat) : Nat :=
  (x <<< s) % 4294967296 ||| x >>> (32 - s)

/-- Little-endian word at index `i` of a 64-byte block. -/
def wordAt (l : List Nat) (i : Nat) : Nat :=
  l.getD (4 * i) 0 + 256 * l.getD (4 * i + 1) 0 + 65536 * l.getD (4 * i + 2) 0
    + 16777216 * l.getD (4 * i + 3) 0

/-- One MD5 round step. -/
def md5Step (block : List Nat) (st : Nat × Nat × Nat × Nat) (i : Nat) :
    Nat × Nat × Nat × Nat :=
  let (a, b, c, d) := st
  let f :=
    if i < 16 then (b &&& c) ||| ((b ^^^ 4294967295) &&& d)
    else if i < 32 then (d &&& b) ||| ((d ^^^ 4294967295) &&& c)
    else if i < 48 then b ^^^ c ^^^ d
    else c ^^^ (b ||| (d ^^^ 4294967295))
  let g :=
    if i < 16 then i
    else if i < 32 then (5 * i + 1) % 16
    else if i < 48 then (3 * i + 5) % 16
    else 7 * i % 16
  let tmp := (a + f + md5K.getD i 0 + wordAt block g) % 4294967296
  (d, (b + rotl32 tmp (md5S i)) % 4294967296, b, c)

/-- MD5 compression of one 64-byte block. -/
def md5Compress (st : Nat × Nat × Nat × Nat) (block : List Nat) :
    Nat × Nat × Nat × Nat :=
  let (a, b, c, d) := (List.range 64).foldl (md5Step block) st
  let (a0, b0, c0, d0) := st
  ((a0 + a) % 4294967296, (b0 + b) % 4294967296,
   (c0 + c) % 4294967296, (d0 + d) % 4294967296)

/-- Little-endian bytes of one 32-bit word. -/
def wordBytes (w : Nat) : List Nat :=
  [w % 256, w / 256 % 256, w / 65536 % 256, w / 16777216 % 256]

/-- The 16 digest bytes of the MD5 of a string's UTF-8 bytes. -/
def md5Bytes (s : String) : List Nat :=
  let msg := padMsg (strBytes s)
  let fin := (chunks64 msg.length msg).foldl md5Compress
    (0x67452301, 0xefcdab89, 0x98badcfe, 0x10325476)
  wordBytes fin.1 ++ wordBytes fin.2.1 ++ wordBytes fin.2.2.1 ++ wordBytes fin.2.2.2

/-- Lowercase hex digit for a value below 16. -/
def hexDigit (n : Nat) : Char :=
  if n < 10 then Char.ofNat (48 + n) else Char.ofNat (87 + n)

/-- Two hex characters of one byte. -/
def byteHex (b : Nat) : List Char :=
  [hexDigit (b / 16 % 16), hexDigit (b % 16)]

/-- Models `hashlib.md5(s.encode()).hexdigest()`. -/
def md5hex (s : String) : String :=
  ⟨((md5Bytes s).map byteHex).flatten⟩

/-! ### Decimal rendering (Python's `str(int)`, used by the `id = {user_id}` f-string) -/

/-- The single-quote character `'` (codepoint 39). -/
def quoteChar : Char := Char.ofNat 39

/-- A one-character string holding the single quote. -/
def sq : String := ⟨[quoteChar]⟩

/-- Wraps a value in single quotes, as the f-strings do around interpolations. -/
def quoted (s : String) : String := sq ++ s ++ sq

/-- Holds when `s` contains no single-quote character, so its interpolation into a query
stays inside one SQL string literal. -/
def noQuote (s : String) : Prop := ∀ c ∈ s.data, c ≠ quoteChar

instance (s : String) : Decidable (noQuote s) := by
  unfold noQuote; infer_instance

/-- Decimal digit character. -/
def digitChar (d : Nat) : Char := Char.ofNat (48 + d)

/-- Digits of `n` (most significant first), prepended to `acc`; fuel-based so the
kernel can evaluate it. -/
def natDigitsAux : Nat → Nat → List Char → List Char
  | 0, _, acc => acc
  | fuel + 1, n, acc =>
    if n = 0 then acc else natDigitsAux fuel (n / 10) (digitChar (n % 10) :: acc)

/-- Decimal digit characters of a natural number. -/
def natDigits (n : Nat) : List Char :=
  if n = 0 then [digitChar 0] else natDigitsAux (n + 1) n []

/-- Python's `str()` of an `int`. -/
def intRepr (i : Int) : String :=
  if i < 0 then ⟨'-' :: natDigits (-i).toNat⟩ else ⟨natDigits i.toNat⟩


/-! ### SQL tokenizer

Models the lexical layer sqlite applies to the query text the program builds:
single-quoted string literals with `''` as escaped quote, `--` comments,
identifiers, decimal integers and the punctuation reachable from the program's
query templates.  Inputs outside that fragment lex to an error, which surfaces
as the exception `sqlite3` would raise. -/

/-- Equality of `Except` results is decidable (needed to evaluate the model at
concrete inputs). -/
def exceptDecEq {ε α : Type} [DecidableEq ε] [DecidableEq α] :
    DecidableEq (Except ε α)
  | .error e1, .error e2 =>
    match decEq e1 e2 with
    | isTrue h => isTrue (by rw [h])
    | isFalse h => isFalse (fun he => h (Except.error.inj he))
  | .error _, .ok _ => isFalse Except.noConfusion
  | .ok _, .error _ => isFalse Except.noConfusion
  | .ok a1, .ok a2 =>
    match decEq a1 a2 with
    | isTrue h => isTrue (by rw [h])
    | isFalse h => isFalse (fun he => h (Except.ok.inj he))

instance {ε α : Type} [DecidableEq ε] [DecidableEq α] :
    DecidableEq (Except ε α) := exceptDecEq

/-- Errors raised by the embedded storage layer. -/
inductive SqlError where
  | parseErr
  | tooManyStatements
  | noSuchTable
  | noSuchColumn
  deriving DecidableEq, Repr

/-- Text of `str(e)` for the exception, as interpolated into the error print. -/
def errText : SqlError → String
  | .parseErr => "near ...: syntax error"
  | .tooManyStatements => "You can only execute one statement at a time."
  | .noSuchTable => "no such table: users"
  | .noSuchColumn => "no such column"

/-- SQL tokens. -/
inductive Tok where
  | str (s : String)
  | num (n : Nat)
  | ident (s : String)
  | lparen
  | rparen
  | comma
  | eq
  | star
  | semi
  | minus
  deriving DecidableEq, Repr

/-- Lexer state between two characters. -/
inductive MState where
  | normal
  | inStr (acc : List Char)
  | strQ (acc : List Char)
  | inNum (v : Nat)
  | inId (acc : List Char)
  | afterMinus
  | comment
  | failed (e : SqlError)
  deriving DecidableEq, Repr

/-- First character of an identifier. -/
def identStart (c : Char) : Bool := c.isAlpha || c = '_'

/-- Continuation character of an identifier. -/
def identCont (c : Char) : Bool := c.isAlphanum || c = '_'

/-- Handle one character from the `normal` state: emitted tokens and next state. -/
def stepNormal (c : Char) : List Tok × MState :=
  if c = ' ' ∨ c = '\t' ∨ c = '\n' ∨ c = '\r' then ([], .normal)
  else if c = '(' then ([.lparen], .normal)
  else if c = ')' then ([.rparen], .normal)
  else if c = ',' then ([.comma], .normal)
  else if c = '=' then ([.eq], .normal)
  else if c = '*' then ([.star], .normal)
  else if c = ';' then ([.semi], .normal)
  else if c = '-' then ([], .afterMinus)
  else if c = quoteChar then ([], .inStr [])
  else if c.isDigit then ([], .inNum (c.toNat - 48))
  else if identStart c then ([], .inId [c])
  else ([], .failed .parseErr)

/-- One lexer transition. -/
def step (p : List Tok × MState) (c : Char) : List Tok × MState :=
  let (toks, st) := p
  match st with
  | .failed e => (toks, .failed e)
  | .comment => if c = '\n' then (toks, .normal) else (toks, .comment)
  | .normal => let (d, st2) := stepNormal c; (toks ++ d, st2)
  | .afterMinus =>
    if c = '-' then (toks, .comment)
    else let (d, st2) := stepNormal c; (toks ++ Tok.minus :: d, st2)
  | .inStr acc =>
    if c = quoteChar then (toks, .strQ acc) else (toks, .inStr (acc ++ [c]))
  | .strQ acc =>
    if c = quoteChar then (toks, .inStr (acc ++ [quoteChar]))
    else let (d, st2) := stepNormal c; (toks ++ Tok.str ⟨acc⟩ :: d, st2)
  | .inNum v =>
    if c.isDigit then (toks, .inNum (v * 10 + (c.toNat - 48)))
    else if identStart c then (toks, .failed .parseErr)
    else let (d, st2) := stepNormal c; (toks ++ Tok.num v :: d, st2)
  | .inId acc =>
    if identCont c then (toks, .inId (acc ++ [c]))
    else let (d, st2) := stepNormal c; (toks ++ Tok.ident ⟨acc⟩ :: d, st2)

/-- Close the lexer at end of input. -/
def finalize (p : List Tok × MState) : Except SqlError (List Tok) :=
  match p.2 with
  | .normal => .ok p.1
  | .comment => .ok p.1
  | .afterMinus => .ok (p.1 ++ [.minus])
  | .inStr _ => .error .parseErr
  | .strQ acc => .ok (p.1 ++ [.str ⟨acc⟩])
  | .inNum v => .ok (p.1 ++ [.num v])
  | .inId acc => .ok (p.1 ++ [.ident ⟨acc⟩])
  | .failed e => .error e

/-- Tokenize a query string. -/
def tokenize (s : String) : Except SqlError (List Tok) :=
  finalize (s.data.foldl step ([], .normal))

/-! ### SQL parser and evaluator

Covers the statement shapes reachable from the program's query templates:
the `CREATE TABLE` from `__init__`, `INSERT INTO users` with one or more
`VALUES` tuples (sqlite's multi-row `VALUES`, reachable through the
interpolated username), `SELECT * FROM users WHERE <cond>` with `=`, `AND`,
`OR`, and `DROP TABLE users` (so that schema changes are expressible).
`sqlite3`'s `Cursor.execute` refuses more than one statement per call, which
the splitter below enforces. -/

/-- Columns of the `users` table. -/
inductive Col where
  | id
  | username
  | password
  | email
  deriving DecidableEq, Repr

/-- Resolve a column name. -/
def colOf (s : String) : Option Col :=
  if s = "id" then some .id
  else if s = "username" then some .username
  else if s = "password" then some .password
  else if s = "email" then some .email
  else none

/-- SQL values (the fixture only produces text and integer values). -/
inductive Val where
  | s (v : String)
  | i (v : Int)
  deriving DecidableEq, Repr

/-- Terms of a `WHERE` comparison. -/
inductive Expr where
  | lit (v : Val)
  | col (c : Col)
  deriving DecidableEq, Repr

/-- Conditions of a `WHERE` clause (`AND` binds tighter than `OR`). -/
inductive Cond where
  | cmp (a b : Expr)
  | and (a b : Cond)
  | or (a b : Cond)
  deriving DecidableEq, Repr

/-- Parsed statements.  An insert carries one or more `VALUES` tuples: sqlite
accepts multi-row `VALUES ('a','b','c'),('d','e','f')`, which the interpolated
username can reach. -/
inductive Stmt where
  | insertUsers (tuples : List (Val × Val × Val))
  | selectAll (c : Cond)
  | createUsersTable
  | dropUsersTable
  deriving DecidableEq, Repr

/-- Literal value in a `VALUES` tuple (a bare identifier is a column reference,
which sqlite rejects inside `VALUES` of this insert). -/
def parseLit : List Tok → Except SqlError (Val × List Tok)
  | .str s :: r => .ok (.s s, r)
  | .num n :: r => .ok (.i n, r)
  | .minus :: .num n :: r => .ok (.i (-(n : Int)), r)
  | .ident _ :: _ => .error .noSuchColumn
  | _ => .error .parseErr

/-- Primary term of a comparison. -/
def parsePrim : List Tok → Except SqlError (Expr × List Tok)
  | .str s :: r => .ok (.lit (.s s), r)
  | .num n :: r => .ok (.lit (.i n), r)
  | .minus :: .num n :: r => .ok (.lit (.i (-(n : Int))), r)
  | .ident s :: r =>
    match colOf s with
    | some c => .ok (.col c, r)
    | none => .error .noSuchColumn
  | _ => .error .parseErr

/-- One `a = b` comparison. -/
def parseCmp (toks : List Tok) : Except SqlError (Cond × List Tok) := do
  let (a, r) ← parsePrim toks
  match r with
  | .eq :: r2 => do
    let (b, r3) ← parsePrim r2
    .ok (.cmp a b, r3)
  | _ => .error .parseErr

/-- Chain of comparisons joined by `AND`. -/
def parseAnd : Nat → List Tok → Except SqlError (Cond × List Tok)
  | 0, _ => .error .parseErr
  | fuel + 1, toks => do
    let (c, r) ← parseCmp toks
    match r with
    | .ident "AND" :: r2 => do
      let (c2, r3) ← parseAnd fuel r2
      .ok (.and c c2, r3)
    | _ => .ok (c, r)

/-- Chain of `AND`-chains joined by `OR`. -/
def parseOr : Nat → List Tok → Except SqlError (Cond × List Tok)
  | 0, _ => .error .parseErr
  | fuel + 1, toks => do
    let (c, r) ← parseAnd (fuel + 1) toks
    match r with
    | .ident "OR" :: r2 => do
      let (c2, r3) ← parseOr fuel r2
      .ok (.or c c2, r3)
    | _ => .ok (c, r)

/-- A full `WHERE` condition, consuming all tokens. -/
def parseCond (toks : List Tok) : Except SqlError Cond := do
  let (c, r) ← parseOr (toks.length + 1) toks
  if r = [] then .ok c else .error .parseErr

/-- One parenthesised three-literal `VALUES` tuple. -/
def parseTuple (toks : List Tok) : Except SqlError ((Val × Val × Val) × List Tok) :=
  match toks with
  | .lparen :: rest =>
    match parseLit rest with
    | .error e => .error e
    | .ok (v1, r1) =>
      match r1 with
      | .comma :: r2 =>
        match parseLit r2 with
        | .error e => .error e
        | .ok (v2, r3) =>
          match r3 with
          | .comma :: r4 =>
            match parseLit r4 with
            | .error e => .error e
            | .ok (v3, r5) =>
              match r5 with
              | .rparen :: r6 => .ok ((v1, v2, v3), r6)
              | _ => .error .parseErr
          | _ => .error .parseErr
      | _ => .error .parseErr
  | _ => .error .parseErr

/-- One or more comma-separated `VALUES` tuples, consuming all tokens. -/
def parseTuples : Nat → List Tok → Except SqlError (List (Val × Val × Val))
  | 0, _ => .error .parseErr
  | fuel + 1, toks =>
    match parseTuple toks with
    | .error e => .error e
    | .ok (t, rest) =>
      match rest with
      | [] => .ok [t]
      | .comma :: r2 =>
        match parseTuples fuel r2 with
        | .error e => .error e
        | .ok ts => .ok (t :: ts)
      | _ => .error .parseErr

/-- Tail of an `INSERT` statement, after `INSERT`. -/
def parseInsert (toks : List Tok) : Except SqlError Stmt :=
  match toks with
  | .ident "INTO" :: .ident "users" :: .lparen :: .ident "username" :: .comma ::
    .ident "password" :: .comma :: .ident "email" :: .rparen ::
    .ident "VALUES" :: rest =>
    (parseTuples (rest.length + 1) rest).map .insertUsers
  | _ => .error .parseErr

/-- Tail of a `SELECT` statement, after `SELECT`. -/
def parseSelect (toks : List Tok) : Except SqlError Stmt :=
  match toks with
  | .star :: .ident "FROM" :: .ident "users" :: .ident "WHERE" :: rest =>
    (parseCond rest).map .selectAll
  | _ => .error .parseErr

/-- Token tail of the `CREATE TABLE` statement issued by `__init__`. -/
def createTail : List Tok :=
  [.ident "TABLE", .ident "IF", .ident "NOT", .ident "EXISTS", .ident "users",
   .lparen, .ident "id", .ident "INTEGER", .ident "PRIMARY", .ident "KEY",
   .comma, .ident "username", .ident "TEXT", .comma, .ident "password",
   .ident "TEXT", .comma, .ident "email", .ident "TEXT", .rparen]

/-- Parse one statement. -/
def parseStmt (toks : List Tok) : Except SqlError Stmt :=
  match toks with
  | .ident kw :: rest =>
    if kw = "INSERT" then parseInsert rest
    else if kw = "SELECT" then parseSelect rest
    else if kw = "CREATE" then
      if rest = createTail then .ok .createUsersTable else .error .parseErr
    else if kw = "DROP" then
      if rest = [.ident "TABLE", .ident "users"] then .ok .dropUsersTable
      else .error .parseErr
    else .error .parseErr
  | _ => .error .parseErr

/-- Split at the first `;` token: tokens before it, and the rest if a `;` occurs. -/
def splitFirstSemi : List Tok → List Tok × Option (List Tok)
  | [] => ([], none)
  | .semi :: r => ([], some r)
  | t :: r => (t :: (splitFirstSemi r).1, (splitFirstSemi r).2)

/-- Python's `sqlite3.Cursor.execute` accepts one statement, optionally followed by `;`. -/
def checkSingle (toks : List Tok) : Except SqlError (List Tok) :=
  match splitFirstSemi toks with
  | (before, none) => .ok before
  | (before, some []) => .ok before
  | (_, some (_ :: _)) => .error .tooManyStatements

/-! ### Table state and statement execution -/

/-- One stored record of the `users` table. -/
structure Row where
  id : Nat
  username : String
  password : String
  email : String
  deriving DecidableEq, Repr

/-- The backing store: the `users` table (if created) and its rows in insertion
order. -/
structure DB where
  tableExists : Bool
  rows : List Row
  deriving DecidableEq, Repr

/-- The rowid sqlite assigns to the next insert (`max id + 1`). -/
def newId (db : DB) : Nat :=
  db.rows.foldl (fun m r => max m r.id) 0 + 1

/-- Storage with `TEXT` affinity: numeric values are stored as their text. -/
def valToText : Val → String
  | .s s => s
  | .i n => intRepr n

/-- Value of a term at a row. -/
def evalExpr (r : Row) : Expr → Val
  | .lit v => v
  | .col .id => .i r.id
  | .col .username => .s r.username
  | .col .password => .s r.password
  | .col .email => .s r.email

/-- SQL equality of two values (different storage classes compare unequal). -/
def valEq : Val → Val → Bool
  | .s a, .s b => a = b
  | .i a, .i b => a = b
  | _, _ => false

/-- Truth of a condition at a row. -/
def evalCond (r : Row) : Cond → Bool
  | .cmp a b => valEq (evalExpr r a) (evalExpr r b)
  | .and a b => evalCond r a && evalCond r b
  | .or a b => evalCond r a || evalCond r b

/-- Insert the tuples one after another, each receiving the next rowid. -/
def insertAll (db : DB) : List (Val × Val × Val) → DB
  | [] => db
  | (v1, v2, v3) :: ts =>
    insertAll { db with rows := db.rows
      ++ [⟨newId db, valToText v1, valToText v2, valToText v3⟩] } ts

/-- Models `conn.execute(q)`: the new store and the rows a `SELECT` yields. -/
def execSQL (db : DB) (q : String) : Except SqlError (DB × List Row) := do
  let toks ← tokenize q
  let toks1 ← checkSingle toks
  let stmt ← parseStmt toks1
  match stmt with
  | .insertUsers ts =>
    if db.tableExists then .ok (insertAll db ts, [])
    else .error .noSuchTable
  | .selectAll c =>
    if db.tableExists then .ok (db, db.rows.filter (fun r => evalCond r c))
    else .error .noSuchTable
  | .createUsersTable => .ok (if db.tableExists then db else ⟨true, []⟩, [])
  | .dropUsersTable =>
    if db.tableExists then .ok (⟨false, []⟩, []) else .error .noSuchTable

/-! ### The module: `UserManager`, free functions, globals -/

/-- The hardcoded module constant `SECRET_KEY` (used by no operation). -/
def SECRET_KEY : String := "my_super_secret_key_123"

/-- Output streams of the process. -/
inductive OutStream where
  | stdout
  | stderr
  deriving DecidableEq, Repr

/-- One line written by the program (`print` writes to `stdout`). -/
structure OutLine where
  stream : OutStream
  text : String
  deriving DecidableEq, Repr

/-- The `CREATE TABLE` statement string from `UserManager.__init__` (a Python
triple-quoted literal: it contains a newline and the file's indentation). -/
def initDDL : String :=
  "CREATE TABLE IF NOT EXISTS users \n                            (id INTEGER PRIMARY KEY, username TEXT, password TEXT, email TEXT)"

/-- Models `UserManager.__init__` on a fresh store: connect and ensure the schema. -/
def UserManager.init : DB :=
  match execSQL ⟨false, []⟩ initDDL with
  | .ok (db, _) => db
  | .error _ => ⟨false, []⟩

/-- The f-string `create_user` builds (the local `query` variable). -/
def createQuery (username password_hash email : String) : String :=
  "INSERT INTO users (username, password, email) VALUES ("
    ++ quoted username ++ ", " ++ quoted password_hash ++ ", "
    ++ quoted email ++ ")"

/-- The f-string `authenticate` builds. -/
def authQuery (username password_hash : String) : String :=
  "SELECT * FROM users WHERE username = " ++ quoted username
    ++ " AND password = " ++ quoted password_hash

/-- The f-string `get_user_data` builds. -/
def getQuery (user_id : Int) : String :=
  "SELECT * FROM users WHERE id = " ++ intRepr user_id

/-- Models `UserManager.create_user`: hash, interpolate, execute; exceptions are caught,
printed and turned into `False`.  Returns (result, printed lines, new store). -/
def UserManager.create_user (db : DB) (username password email : String) :
    Bool × List OutLine × DB :=
  let password_hash := md5hex password
  let query := createQuery username password_hash email
  match execSQL db query with
  | .ok (db2, _) => (true, [], db2)
  | .error e => (false, [⟨.stdout, "Database error: " ++ errText e⟩], db)

/-- Models `UserManager.authenticate`: re-hash and look for a matching record; a raised
exception propagates (`.error`). -/
def UserManager.authenticate (db : DB) (username password : String) :
    Except SqlError (Bool × DB) := do
  let password_hash := md5hex password
  let (db2, rows) ← execSQL db (authQuery username password_hash)
  .ok (rows.head?.isSome, db2)

/-- Models `UserManager.get_user_data`: fetch by interpolated identifier. -/
def UserManager.get_user_data (db : DB) (user_id : Int) :
    Except SqlError (Option Row × DB) := do
  let (db2, rows) ← execSQL db (getQuery user_id)
  .ok (rows.head?, db2)

/-- Models `execute_system_command`: the command string handed to `os.system`. -/
def execute_system_command (user_input : String) : String :=
  "echo " ++ user_input

/-- Split a character list at `;`. -/
def splitSemis (l : List Char) : List (List Char) :=
  l.foldr
    (fun c acc =>
      match acc with
      | cur :: rest => if c = ';' then [] :: cur :: rest else (c :: cur) :: rest
      | [] => [[c]])
    [[]]

/-- Modelled from the spec: `os.system` hands the command to the shell, and the
spec's command-injection discussion says shell metacharacters make it "execute
unintended commands"; the missing shell is modelled as executing each
`;`-separated segment of the command text as its own command. -/
def shellCommands (cmd : String) : List String :=
  (splitSemis cmd.data).map (fun cs => ⟨cs⟩)

/-- Shell metacharacters (the spec's injection vocabulary). -/
def shellMeta : List Char :=
  [';', '&', '|', '$', '(', ')', '<', '>', '\n', Char.ofNat 96]

/-- A string free of shell metacharacters. -/
def noShellMeta (s : String) : Prop := ∀ c ∈ s.data, c ∉ shellMeta

instance (s : String) : Decidable (noShellMeta s) := by
  unfold noShellMeta; infer_instance

/-- Models `increment_counter`: bump the module-global counter, return the new value.
Result: (new counter, returned value). -/
def increment_counter (global_counter : Nat) : Nat × Nat :=
  (global_counter + 1, global_counter + 1)

/-- The module's mutable state: the hardcoded constant, the manager's store and
the global counter. -/
structure ModuleState where
  secret_key : String
  db : DB
  global_counter : Nat
  deriving DecidableEq, Repr

/-- The module as loaded: constant set, table ensured, counter zero. -/
def initialState : ModuleState :=
  ⟨SECRET_KEY, UserManager.init, 0⟩

/-- One call into the module's surface. -/
inductive Op where
  | create (u p e : String)
  | auth (u p : String)
  | getData (i : Int)
  | execCmd (s : String)
  | incr

/-- What a caller observes from one call. -/
inductive Obs where
  | created (b : Bool) (out : List OutLine)
  | authed (r : Except SqlError Bool)
  | got (r : Except SqlError (Option Row))
  | ran (cmds : List String)
  | counted (n : Nat)

/-- Execute one call against the module state. -/
def runOp (s : ModuleState) : Op → ModuleState × Obs
  | .create u p e =>
    ({ s with db := (UserManager.create_user s.db u p e).2.2 },
     .created (UserManager.create_user s.db u p e).1
       (UserManager.create_user s.db u p e).2.1)
  | .auth u p =>
    match UserManager.authenticate s.db u p with
    | .ok (b, db2) => ({ s with db := db2 }, .authed (.ok b))
    | .error e => (s, .authed (.error e))
  | .getData i =>
    match UserManager.get_user_data s.db i with
    | .ok (r, db2) => ({ s with db := db2 }, .got (.ok r))
    | .error e => (s, .got (.error e))
  | .execCmd c => (s, .ran (shellCommands (execute_system_command c)))
  | .incr =>
    ({ s with global_counter := (increment_counter s.global_counter).1 },
     .counted (increment_counter s.global_counter).2)

/-- Execute a call sequence, collecting the observations. -/
def run (s : ModuleState) : List Op → ModuleState × List Obs
  | [] => (s, [])
  | op :: ops =>
    ((run (runOp s op).1 ops).1,
     (runOp s op).2 :: (run (runOp s op).1 ops).2)

/-! ### Concrete scenario values (used below at concrete inputs) -/

/-- The store after `create_user("alice", "pw123", "a@x.com")` on a fresh store
(the spec's concrete scenario). -/
def db_alice : DB :=
  (UserManager.create_user UserManager.init "alice" "pw123" "a@x.com").2.2

/-- The store after creating the same user twice (usernames are not unique). -/
def db_alice2 : DB :=
  (UserManager.create_user db_alice "alice" "pw123" "a@x.com").2.2

/-- A username holding one single quote (`O'Brien`). -/
def obrien : String := "O" ++ sq ++ "Brien"

/-- An injection-shaped username: closes the SQL string and the `VALUES` tuple
and comments out the rest of the statement. -/
def injU : String :=
  "x" ++ sq ++ "," ++ sq ++ "y" ++ sq ++ "," ++ sq ++ "z" ++ sq ++ ")--"

/-- The store after creating a user with the injection-shaped username. -/
def db_inj : DB :=
  (UserManager.create_user UserManager.init injU "pw123" "a@x.com").2.2

/-- An injection-shaped username that closes the first `VALUES` tuple and opens
a second one, so a single `create_user` call inserts two rows. -/
def injU2 : String :=
  "a" ++ sq ++ "," ++ sq ++ "h" ++ sq ++ "," ++ sq ++ "e" ++ sq ++ "),(" ++ sq ++ "b"

/-! ### Facts about the digest -/

theorem md5Bytes_length (s : String) : (md5Bytes s).length = 16 := by
  simp [md5Bytes, wordBytes]

theorem byteHex_flatten_length (bs : List Nat) :
    ((bs.map byteHex).flatten).length = 2 * bs.length := by
  induction bs with
  | nil => simp
  | cons b t ih => simp [byteHex, ih]; omega

theorem md5hex_length (s : String) : (md5hex s).length = 32 := by
  show ((md5Bytes s).map byteHex).flatten.length = 32
  rw [byteHex_flatten_length, md5Bytes_length]

theorem md5hex_ne_of_length {p : String} (h : p.length ≠ 32) : md5hex p ≠ p :=
  fun he => h (by rw [← he, md5hex_length])

theorem hexDigit_ne_quote {m : Nat} (h : m < 16) : hexDigit m ≠ quoteChar := by
  interval_cases m <;> decide

theorem md5hex_noQuote (s : String) : noQuote (md5hex s) := by
  intro c hc
  have hc2 : c ∈ ((md5Bytes s).map byteHex).flatten := hc
  rw [List.mem_flatten] at hc2
  obtain ⟨l, hl, hcl⟩ := hc2
  rw [List.mem_map] at hl
  obtain ⟨b, _, rfl⟩ := hl
  simp only [byteHex, List.mem_cons, List.not_mem_nil, or_false] at hcl
  rcases hcl with rfl | rfl
  · exact hexDigit_ne_quote (Nat.mod_lt _ (by norm_num))
  · exact hexDigit_ne_quote (Nat.mod_lt _ (by norm_num))

/-! ### The digest has finite range, so it collides somewhere (pigeonhole) -/

/-- Base-`2^32` code of a character list (characters are 32-bit scalars). -/
def strCode (l : List Char) : Nat :=
  l.foldr (fun c acc => c.toNat + 4294967296 * acc) 0

theorem char_toNat_lt (c : Char) : c.toNat < 4294967296 := by
  have h := c.val.toBitVec.isLt
  norm_num at h
  exact h

theorem strCode_lt : ∀ l : List Char, strCode l < 4294967296 ^ l.length := by
  intro l
  induction l with
  | nil => simp [strCode]
  | cons c t ih =>
    have hc := char_toNat_lt c
    have hcons : strCode (c :: t) = c.toNat + 4294967296 * strCode t := rfl
    have h1 : strCode (c :: t) < 4294967296 * (strCode t + 1) := by omega
    calc strCode (c :: t) < 4294967296 * (strCode t + 1) := h1
      _ ≤ 4294967296 * 4294967296 ^ t.length :=
        Nat.mul_le_mul_left _ (by omega)
      _ = 4294967296 ^ (c :: t).length := by
        rw [List.length_cons, pow_succ, Nat.mul_comm]

theorem char_toNat_inj : ∀ {a b : Char}, a.toNat = b.toNat → a = b := by
  rintro ⟨⟨av⟩, pa⟩ ⟨⟨bv⟩, pb⟩ h
  have hv : av = bv := BitVec.eq_of_toNat_eq h
  subst hv
  rfl

theorem strCode_inj : ∀ l1 l2 : List Char, l1.length = l2.length →
    strCode l1 = strCode l2 → l1 = l2 := by
  intro l1
  induction l1 with
  | nil => intro l2 hl _; cases l2 <;> simp_all
  | cons c t ih =>
    intro l2 hl he
    cases l2 with
    | nil => simp at hl
    | cons c2 t2 =>
      have hlen : t.length = t2.length := by simpa using hl
      have hc := char_toNat_lt c
      have hc2 := char_toNat_lt c2
      have he1 : c.toNat + 4294967296 * strCode t
          = c2.toNat + 4294967296 * strCode t2 := he
      have h1 : c.toNat = c2.toNat ∧ strCode t = strCode t2 := by
        constructor <;> omega
      rw [char_toNat_inj h1.1, ih t2 hlen h1.2]

/-- The digest takes infinitely many strings into a set of at most `2^(32*32)`
values, so two distinct strings share a digest. -/
theorem data_length_eq (s : String) : s.data.length = s.length := by
  cases s
  rfl

theorem md5_collision : ∃ a b : String, a ≠ b ∧ md5hex a = md5hex b := by
  have hbound : ∀ n : ℕ,
      strCode (md5hex ⟨List.replicate n 'a'⟩).data < 4294967296 ^ 32 := by
    intro n
    have h := strCode_lt (md5hex ⟨List.replicate n 'a'⟩).data
    have hl : (md5hex ⟨List.replicate n 'a'⟩).data.length = 32 := by
      rw [data_length_eq, md5hex_length]
    rwa [hl] at h
  obtain ⟨n, m, hnm, hfe⟩ := Finite.exists_ne_map_eq_of_infinite
    (fun n : ℕ => (⟨strCode (md5hex ⟨List.replicate n 'a'⟩).data, hbound n⟩ :
      Fin (4294967296 ^ 32)))
  refine ⟨⟨List.replicate n 'a'⟩, ⟨List.replicate m 'a'⟩, ?_, ?_⟩
  · intro h
    apply hnm
    have := congrArg (fun s : String => s.data.length) h
    simpa using this
  · have hcode : strCode (md5hex ⟨List.replicate n 'a'⟩).data =
        strCode (md5hex ⟨List.replicate m 'a'⟩).data := by
      simpa [Fin.mk.injEq] using hfe
    apply String.ext
    exact strCode_inj _ _
      (by rw [data_length_eq, data_length_eq, md5hex_length, md5hex_length]) hcode

/-! ### Decimal representation round-trip -/

/-- Decimal digits of `n`, most significant first (proof-side reference). -/
def digitsList (n : Nat) : List Char :=
  if n = 0 then [] else digitsList (n / 10) ++ [digitChar (n % 10)]
termination_by n
decreasing_by exact Nat.div_lt_self (Nat.pos_of_ne_zero (by assumption)) (by norm_num)

theorem natDigitsAux_eq : ∀ (f n : Nat) (acc : List Char), n < 10 ^ f →
    natDigitsAux f n acc = digitsList n ++ acc := by
  intro f
  induction f with
  | zero => intro n acc h; interval_cases n; simp [natDigitsAux, digitsList]
  | succ f ih =>
    intro n acc h
    by_cases h0 : n = 0
    · simp [natDigitsAux, digitsList, h0]
    · have hdiv : n / 10 < 10 ^ f :=
        Nat.div_lt_of_lt_mul (by rw [← pow_succ']; exact h)
      simp only [natDigitsAux]
      rw [if_neg h0, ih _ _ hdiv]
      conv_rhs => rw [digitsList, if_neg h0]
      simp

theorem digitChar_toNat {d : Nat} (h : d < 10) : (digitChar d).toNat = 48 + d := by
  interval_cases d <;> decide

theorem digitChar_isDigit {d : Nat} (h : d < 10) : (digitChar d).isDigit = true := by
  interval_cases d <;> decide

theorem digitsList_digits : ∀ n : Nat, ∀ c ∈ digitsList n, c.isDigit = true := by
  intro n
  induction n using Nat.strong_induction_on with
  | _ n ih =>
    intro c hc
    rw [digitsList] at hc
    split at hc
    · cases hc
    · rename_i h0
      rcases List.mem_append.mp hc with h1 | h1
      · exact ih (n / 10) (Nat.div_lt_self (Nat.pos_of_ne_zero h0) (by norm_num)) c h1
      · rcases h1 with _ | ⟨_, h2⟩
        · exact digitChar_isDigit (Nat.mod_lt _ (by norm_num))
        · cases h2

/-! ### Lexer lemmas -/

/-- The transition `step` only ever appends to the token accumulator. -/
theorem step_append (toks : List Tok) (st : MState) (c : Char) :
    step (toks, st) c = (toks ++ (step ([], st) c).1, (step ([], st) c).2) := by
  cases st <;> simp only [step] <;> (repeat' split) <;> simp

/-- Lift a run of the lexer to an arbitrary token prefix. -/
theorem foldl_step_append (l : List Char) (toks : List Tok) (st : MState) :
    l.foldl step (toks, st)
      = (toks ++ (l.foldl step ([], st)).1, (l.foldl step ([], st)).2) := by
  induction l generalizing toks st with
  | nil => simp
  | cons c l ih =>
    rw [List.foldl_cons, List.foldl_cons, step_append,
      ih _ (step ([], st) c).2, ih (step ([], st) c).1 (step ([], st) c).2]
    simp

/-- Scanning quote-free characters inside a string literal accumulates them. -/
theorem foldl_step_inStr (l : List Char) (toks : List Tok) (acc : List Char)
    (h : ∀ c ∈ l, c ≠ quoteChar) :
    l.foldl step (toks, .inStr acc) = (toks, .inStr (acc ++ l)) := by
  induction l generalizing acc with
  | nil => simp
  | cons c l ih =>
    rw [List.foldl_cons]
    have hc : c ≠ quoteChar := h c (by simp)
    have hstep : step (toks, .inStr acc) c = (toks, .inStr (acc ++ [c])) := by
      simp [step, hc]
    rw [hstep, ih _ (fun x hx => h x (by simp [hx]))]
    simp

/-- A quoted quote-free fragment: the lexer ends up just past the closing quote. -/
theorem foldl_step_quoted (s : String) (hs : noQuote s) (toks : List Tok) :
    (quoteChar :: (s.data ++ [quoteChar])).foldl step (toks, .normal)
      = (toks, .strQ s.data) := by
  rw [List.foldl_cons]
  have h2 : stepNormal quoteChar = ([], .inStr []) := by decide
  have h1 : step (toks, .normal) quoteChar = (toks, .inStr []) := by
    simp [step, h2]
  rw [h1, List.foldl_append, foldl_step_inStr _ _ _ hs]
  simp [step]

/-- A digit seen from the `normal` state starts a number token. -/
theorem stepNormal_digit {c : Char} (h : c.isDigit = true) :
    stepNormal c = ([], .inNum (c.toNat - 48)) := by
  unfold stepNormal
  repeat' split
  all_goals try rfl
  all_goals exfalso
  all_goals
    rename_i hbr
    rcases hbr with rfl | rfl | rfl | rfl <;> exact absurd h (by decide)

/-- A digit extends a number token. -/
theorem step_inNum_digit {c : Char} (h : c.isDigit = true) (toks : List Tok)
    (v : Nat) :
    step (toks, .inNum v) c = (toks, .inNum (v * 10 + (c.toNat - 48))) := by
  simp [step, h]

/-- Running the digits of `n` through the lexer from an entry state that turns
the first digit into a fresh number token. -/
theorem foldl_step_digitsList (n : Nat) (hn : 0 < n) (st0 : MState)
    (δ : List Tok)
    (hst : ∀ (toks : List Tok) (c : Char), c.isDigit = true →
      step (toks, st0) c = (toks ++ δ, .inNum (c.toNat - 48))) :
    ∀ toks : List Tok,
      (digitsList n).foldl step (toks, st0) = (toks ++ δ, .inNum n) := by
  induction n using Nat.strong_induction_on with
  | _ n ih =>
    intro toks
    rw [digitsList, if_neg (Nat.pos_iff_ne_zero.mp hn), List.foldl_append]
    by_cases hlo : n < 10
    · have h0 : n / 10 = 0 := Nat.div_eq_of_lt hlo
      rw [h0]
      rw [show digitsList 0 = [] from by rw [digitsList]; simp]
      simp only [List.foldl_nil, List.foldl_cons, List.foldl_nil]
      rw [hst toks _ (digitChar_isDigit (Nat.mod_lt _ (by norm_num)))]
      rw [digitChar_toNat (Nat.mod_lt _ (by norm_num))]
      have : n % 10 = n := Nat.mod_eq_of_lt hlo
      simp [this]
    · have hq : 0 < n / 10 := Nat.div_pos (Nat.le_of_not_lt hlo) (by norm_num)
      rw [ih (n / 10) (Nat.div_lt_self hn (by norm_num)) hq toks]
      simp only [List.foldl_cons, List.foldl_nil]
      rw [step_inNum_digit (digitChar_isDigit (Nat.mod_lt _ (by norm_num)))]
      rw [digitChar_toNat (Nat.mod_lt _ (by norm_num))]
      have : n / 10 * 10 + (48 + n % 10 - 48) = n := by omega
      rw [this]

/-- Running the decimal digits of any `n` from the `normal` state. -/
theorem foldl_step_natDigits (n : Nat) (toks : List Tok) :
    (natDigits n).foldl step (toks, .normal) = (toks, .inNum n) := by
  by_cases h0 : n = 0
  · subst h0
    rw [show natDigits 0 = [digitChar 0] from rfl]
    simp only [List.foldl_cons, List.foldl_nil]
    rw [show step (toks, MState.normal) (digitChar 0) = (toks ++ [], .inNum 0) from
      by simp [step, stepNormal_digit (c := digitChar 0) (by decide)]; rfl]
    simp
  · rw [natDigits, if_neg h0, natDigitsAux_eq _ _ _ (lt_of_lt_of_le
      (Nat.lt_pow_self (by norm_num) n)
      (Nat.pow_le_pow_right (by norm_num) (Nat.le_succ n)))]
    rw [List.append_nil]
    have := foldl_step_digitsList n (Nat.pos_of_ne_zero h0) .normal []
      (fun toks c hc => by rw [show step (toks, MState.normal) c
        = (toks ++ (stepNormal c).1, (stepNormal c).2) from rfl,
        stepNormal_digit hc]) toks
    simpa using this

/-- Running the decimal digits of any `n` from the `afterMinus` state. -/
theorem foldl_step_natDigits_minus (n : Nat) (toks : List Tok) :
    (natDigits n).foldl step (toks, .afterMinus) = (toks ++ [.minus], .inNum n) := by
  have hentry : ∀ (toks : List Tok) (c : Char), c.isDigit = true →
      step (toks, .afterMinus) c = (toks ++ [Tok.minus], .inNum (c.toNat - 48)) := by
    intro toks c hc
    have hcm : ¬(c = '-') := by
      intro h; subst h; simp at hc
    simp [step, hcm, stepNormal_digit hc]
  by_cases h0 : n = 0
  · subst h0
    rw [show natDigits 0 = [digitChar 0] from rfl]
    simp only [List.foldl_cons, List.foldl_nil]
    rw [hentry toks _ (by decide)]
    rfl
  · rw [natDigits, if_neg h0, natDigitsAux_eq _ _ _ (lt_of_lt_of_le
      (Nat.lt_pow_self (by norm_num) n)
      (Nat.pow_le_pow_right (by norm_num) (Nat.le_succ n)))]
    rw [List.append_nil]
    exact foldl_step_digitsList n (Nat.pos_of_ne_zero h0) .afterMinus [.minus]
      hentry toks

theorem sq_data : sq.data = [quoteChar] := rfl

theorem string_eta (s : String) : (⟨s.data⟩ : String) = s := by
  cases s
  rfl

/-- A character handled by `stepNormal`, from the `normal` state. -/
theorem step_normal_char (toks : List Tok) {c : Char} {d : List Tok} {st2 : MState}
    (hc : stepNormal c = (d, st2)) : step (toks, .normal) c = (toks ++ d, st2) := by
  simp [step, hc]

/-- A non-quote character just after a closing quote emits the string token. -/
theorem step_strQ_char (toks : List Tok) (acc : List Char) {c : Char}
    {d : List Tok} {st2 : MState} (hc : stepNormal c = (d, st2))
    (hne : ¬(c = quoteChar)) :
    step (toks, .strQ acc) c = (toks ++ Tok.str ⟨acc⟩ :: d, st2) := by
  simp [step, hc, hne]

/-- Token list of the interpolated `INSERT` statement. -/
def insToks (u h e : String) : List Tok :=
  [.ident "INSERT", .ident "INTO", .ident "users", .lparen, .ident "username",
   .comma, .ident "password", .comma, .ident "email", .rparen, .ident "VALUES",
   .lparen, .str u, .comma, .str h, .comma, .str e, .rparen]

theorem tokenize_insert (u h e : String) (hu : noQuote u) (hh : noQuote h)
    (he : noQuote e) :
    tokenize ("INSERT INTO users (username, password, email) VALUES ("
        ++ quoted u ++ ", " ++ quoted h ++ ", " ++ quoted e ++ ")")
      = .ok (insToks u h e) := by
  unfold tokenize
  have hdata : ("INSERT INTO users (username, password, email) VALUES ("
        ++ quoted u ++ ", " ++ quoted h ++ ", " ++ quoted e ++ ")").data
      = "INSERT INTO users (username, password, email) VALUES (".data
        ++ ((quoteChar :: (u.data ++ [quoteChar]))
        ++ ([','] ++ ([' ']
        ++ ((quoteChar :: (h.data ++ [quoteChar]))
        ++ ([','] ++ ([' ']
        ++ ((quoteChar :: (e.data ++ [quoteChar]))
        ++ [')']))))))) := by
    simp [quoted, sq]
  rw [hdata, List.foldl_append]
  have h1 : List.foldl step ([], MState.normal)
      ("INSERT INTO users (username, password, email) VALUES (".data)
      = ([.ident "INSERT", .ident "INTO", .ident "users", .lparen,
          .ident "username", .comma, .ident "password", .comma, .ident "email",
          .rparen, .ident "VALUES", .lparen], .normal) := by decide
  rw [h1, List.foldl_append, foldl_step_quoted u hu, List.foldl_append,
    List.foldl_cons, step_strQ_char _ _ (show stepNormal ','
      = ([.comma], .normal) from by decide) (by decide),
    List.foldl_nil, List.foldl_append, List.foldl_cons,
    step_normal_char _ (show stepNormal ' ' = ([], .normal) from by decide),
    List.foldl_nil, List.append_nil, List.foldl_append, foldl_step_quoted h hh,
    List.foldl_append, List.foldl_cons, step_strQ_char _ _ (show stepNormal ','
      = ([.comma], .normal) from by decide) (by decide),
    List.foldl_nil, List.foldl_append, List.foldl_cons,
    step_normal_char _ (show stepNormal ' ' = ([], .normal) from by decide),
    List.foldl_nil, List.append_nil, List.foldl_append, foldl_step_quoted e he,
    List.foldl_cons, step_strQ_char _ _ (show stepNormal ')'
      = ([.rparen], .normal) from by decide) (by decide), List.foldl_nil]
  simp [finalize, insToks, string_eta]

/-- Token list of the interpolated authentication `SELECT`. -/
def authToks (u h : String) : List Tok :=
  [.ident "SELECT", .star, .ident "FROM", .ident "users", .ident "WHERE",
   .ident "username", .eq, .str u, .ident "AND", .ident "password", .eq, .str h]

theorem tokenize_auth (u h : String) (hu : noQuote u) (hh : noQuote h) :
    tokenize ("SELECT * FROM users WHERE username = " ++ quoted u
        ++ " AND password = " ++ quoted h)
      = .ok (authToks u h) := by
  unfold tokenize
  have hdata : ("SELECT * FROM users WHERE username = " ++ quoted u
        ++ " AND password = " ++ quoted h).data
      = "SELECT * FROM users WHERE username = ".data
        ++ ((quoteChar :: (u.data ++ [quoteChar]))
        ++ ([' ']
        ++ ("AND password = ".data
        ++ (quoteChar :: (h.data ++ [quoteChar]))))) := by
    simp [quoted, sq]
  rw [hdata, List.foldl_append]
  have h1 : List.foldl step ([], MState.normal)
      ("SELECT * FROM users WHERE username = ".data)
      = ([.ident "SELECT", .star, .ident "FROM", .ident "users", .ident "WHERE",
          .ident "username", .eq], .normal) := by decide
  rw [h1, List.foldl_append, foldl_step_quoted u hu, List.foldl_append,
    List.foldl_cons,
    step_strQ_char _ _ (show stepNormal ' ' = ([], .normal) from by decide)
      (by decide),
    List.foldl_nil, List.foldl_append]
  have h2 : ∀ toks : List Tok, List.foldl step (toks, MState.normal)
      ("AND password = ".data)
      = (toks ++ [.ident "AND", .ident "password", .eq], .normal) := by
    intro toks
    rw [foldl_step_append]
    have : List.foldl step ([], MState.normal) ("AND password = ".data)
        = ([.ident "AND", .ident "password", .eq], .normal) := by decide
    rw [this]
  rw [h2, foldl_step_quoted h hh]
  simp [finalize, authToks, string_eta]

theorem tokenize_getq (i : Int) :
    tokenize ("SELECT * FROM users WHERE id = " ++ intRepr i)
      = .ok ([.ident "SELECT", .star, .ident "FROM", .ident "users",
          .ident "WHERE", .ident "id", .eq]
          ++ (if i < 0 then [.minus, .num (-i).toNat] else [.num i.toNat])) := by
  unfold tokenize
  have h1 : List.foldl step ([], MState.normal)
      ("SELECT * FROM users WHERE id = ".data)
      = ([.ident "SELECT", .star, .ident "FROM", .ident "users", .ident "WHERE",
          .ident "id", .eq], .normal) := by decide
  by_cases hneg : i < 0
  · have hdata : ("SELECT * FROM users WHERE id = " ++ intRepr i).data
        = "SELECT * FROM users WHERE id = ".data
          ++ ('-' :: natDigits (-i).toNat) := by
      simp [intRepr, if_pos hneg]
    rw [hdata, List.foldl_append, h1, List.foldl_cons,
      step_normal_char _ (show stepNormal '-' = ([], .afterMinus) from by decide),
      List.append_nil, foldl_step_natDigits_minus]
    simp [finalize, if_pos hneg]
  · have hdata : ("SELECT * FROM users WHERE id = " ++ intRepr i).data
        = "SELECT * FROM users WHERE id = ".data ++ natDigits i.toNat := by
      simp [intRepr, if_neg hneg]
    rw [hdata, List.foldl_append, h1, foldl_step_natDigits]
    simp [finalize, if_neg hneg]

/-! ### Parser and executor lemmas -/

theorem ok_bind {ε α β : Type} (a : α) (f : α → Except ε β) :
    (Except.ok (ε := ε) a >>= f) = f a := rfl

theorem bind_ok_shape {ε α β : Type} {m : Except ε α} {f : α → Except ε β} {b : β}
    (h : (m >>= f) = .ok b) : ∃ a, m = .ok a ∧ f a = .ok b := by
  cases m with
  | ok a => exact ⟨a, rfl, h⟩
  | error e => exact absurd h (by simp [Bind.bind, Except.bind])

theorem finalize_extends {t0 rest : List Tok} {st : MState} {out : List Tok}
    (h : finalize (t0 ++ rest, st) = .ok out) : ∃ r2, out = t0 ++ r2 := by
  cases st <;> simp [finalize] at h <;> exact ⟨_, h.symm⟩

/-- Tokens of `p ++ rest` extend the tokens `p` produces on its own, whenever
`p` lexes cleanly back to the `normal` state. -/
theorem tokenize_extends {p rest : String} {ptoks toks : List Tok}
    (h1 : List.foldl step ([], MState.normal) p.data = (ptoks, .normal))
    (h : tokenize (p ++ rest) = .ok toks) : ∃ r2, toks = ptoks ++ r2 := by
  unfold tokenize at h
  rw [String.data_append, List.foldl_append, h1, foldl_step_append] at h
  exact finalize_extends h

theorem splitFirstSemi_cons {t : Tok} {l : List Tok} (hne : t ≠ Tok.semi) :
    splitFirstSemi (t :: l) = (t :: (splitFirstSemi l).1, (splitFirstSemi l).2) := by
  cases t <;> first | exact absurd rfl hne | rfl

theorem checkSingle_cons {t : Tok} {l out : List Tok} (hne : t ≠ Tok.semi)
    (h : checkSingle (t :: l) = .ok out) : ∃ l2, out = t :: l2 := by
  unfold checkSingle at h
  rw [splitFirstSemi_cons hne] at h
  rcases hB : (splitFirstSemi l).2 with _ | ll
  · rw [hB] at h
    simp at h
    exact ⟨_, h.symm⟩
  · rw [hB] at h
    cases ll with
    | nil =>
      simp at h
      exact ⟨_, h.symm⟩
    | cons x xs => simp at h

theorem parseSelect_shape {toks : List Tok} {s : Stmt}
    (h : parseSelect toks = .ok s) : ∃ c, s = .selectAll c := by
  unfold parseSelect at h
  split at h
  · rename_i rest
    cases hc : parseCond rest with
    | ok c =>
      rw [hc] at h
      simp [Except.map] at h
      exact ⟨c, h.symm⟩
    | error e =>
      rw [hc] at h
      simp [Except.map] at h
  · simp at h

theorem parseInsert_shape {toks : List Tok} {s : Stmt}
    (h : parseInsert toks = .ok s) : ∃ ts, s = .insertUsers ts := by
  unfold parseInsert at h
  split at h
  · rename_i rest
    cases hc : parseTuples (rest.length + 1) rest with
    | ok ts =>
      rw [hc] at h
      simp [Except.map] at h
      exact ⟨ts, h.symm⟩
    | error e =>
      rw [hc] at h
      simp [Except.map] at h
  · simp at h

theorem parseStmt_select {rest : List Tok} {s : Stmt}
    (h : parseStmt (.ident "SELECT" :: rest) = .ok s) : ∃ c, s = .selectAll c := by
  have h2 : parseSelect rest = .ok s := h
  exact parseSelect_shape h2

theorem parseStmt_insert {rest : List Tok} {s : Stmt}
    (h : parseStmt (.ident "INSERT" :: rest) = .ok s) :
    ∃ ts, s = .insertUsers ts := by
  have h2 : parseInsert rest = .ok s := h
  exact parseInsert_shape h2

/-- A successful `SELECT`-headed statement leaves the store untouched. -/
theorem execSQL_select_frame {db : DB} {rest : String} {db2 : DB} {out : List Row}
    (h : execSQL db ("SELECT " ++ rest) = .ok (db2, out)) : db2 = db := by
  unfold execSQL at h
  obtain ⟨toks, htok, h⟩ := bind_ok_shape h
  obtain ⟨toks1, hcs, h⟩ := bind_ok_shape h
  obtain ⟨stmt, hps, h⟩ := bind_ok_shape h
  obtain ⟨r2, rfl⟩ : ∃ r2, toks = [Tok.ident "SELECT"] ++ r2 :=
    tokenize_extends (by decide) htok
  obtain ⟨l2, rfl⟩ := checkSingle_cons (by decide) hcs
  obtain ⟨c, rfl⟩ := parseStmt_select hps
  replace h : (if db.tableExists = true then
      Except.ok (db, db.rows.filter (fun r => evalCond r c))
    else Except.error SqlError.noSuchTable) = Except.ok (db2, out) := h
  split at h
  · exact (congrArg Prod.fst (Except.ok.inj h)).symm
  · exact Except.noConfusion h

/-- Sequentially inserting tuples preserves the schema and only appends rows. -/
theorem insertAll_spec : ∀ (ts : List (Val × Val × Val)) (db : DB),
    (insertAll db ts).tableExists = db.tableExists
    ∧ ∃ added, (insertAll db ts).rows = db.rows ++ added := by
  intro ts
  induction ts with
  | nil => exact fun db => ⟨rfl, [], by simp [insertAll]⟩
  | cons t ts ih =>
    intro db
    obtain ⟨v1, v2, v3⟩ := t
    obtain ⟨hte, added, hrows⟩ := ih { db with rows := db.rows
      ++ [⟨newId db, valToText v1, valToText v2, valToText v3⟩] }
    refine ⟨hte, [⟨newId db, valToText v1, valToText v2, valToText v3⟩] ++ added, ?_⟩
    rw [show insertAll db ((v1, v2, v3) :: ts)
      = insertAll { db with rows := db.rows
          ++ [⟨newId db, valToText v1, valToText v2, valToText v3⟩] } ts from rfl,
      hrows]
    simp

/-- A successful `INSERT`-headed statement keeps the schema and only appends
records (one per `VALUES` tuple). -/
theorem execSQL_insert_frame {db : DB} {rest : String} {db2 : DB} {out : List Row}
    (h : execSQL db ("INSERT " ++ rest) = .ok (db2, out)) :
    db2.tableExists = db.tableExists ∧ ∃ added, db2.rows = db.rows ++ added := by
  unfold execSQL at h
  obtain ⟨toks, htok, h⟩ := bind_ok_shape h
  obtain ⟨toks1, hcs, h⟩ := bind_ok_shape h
  obtain ⟨stmt, hps, h⟩ := bind_ok_shape h
  obtain ⟨r2, rfl⟩ : ∃ r2, toks = [Tok.ident "INSERT"] ++ r2 :=
    tokenize_extends (by decide) htok
  obtain ⟨l2, rfl⟩ := checkSingle_cons (by decide) hcs
  obtain ⟨ts, rfl⟩ := parseStmt_insert hps
  replace h : (if db.tableExists = true then
      Except.ok (insertAll db ts, ([] : List Row))
    else Except.error SqlError.noSuchTable) = Except.ok (db2, out) := h
  split at h
  · have hdb2 : insertAll db ts = db2 := congrArg Prod.fst (Except.ok.inj h)
    rw [← hdb2]
    exact insertAll_spec ts db
  · exact Except.noConfusion h

/-! ### Evaluating the three query templates -/

theorem exec_insert (db : DB) (u h e : String) (hu : noQuote u) (hh : noQuote h)
    (he : noQuote e) (ht : db.tableExists = true) :
    execSQL db (createQuery u h e)
      = .ok ({ db with rows := db.rows ++ [⟨newId db, u, h, e⟩] }, []) := by
  unfold execSQL createQuery
  rw [tokenize_insert u h e hu hh he, ok_bind]
  rw [show checkSingle (insToks u h e) = .ok (insToks u h e) from rfl, ok_bind]
  rw [show parseStmt (insToks u h e)
      = .ok (.insertUsers [(.s u, .s h, .s e)]) from rfl, ok_bind]
  simp [ht, insertAll, valToText]

theorem exec_auth (db : DB) (u h : String) (hu : noQuote u) (hh : noQuote h)
    (ht : db.tableExists = true) :
    execSQL db (authQuery u h)
      = .ok (db, db.rows.filter
          (fun r => decide (r.username = u) && decide (r.password = h))) := by
  unfold execSQL authQuery
  rw [tokenize_auth u h hu hh, ok_bind]
  rw [show checkSingle (authToks u h) = .ok (authToks u h) from rfl, ok_bind]
  rw [show parseStmt (authToks u h)
      = .ok (.selectAll (.and (.cmp (.col .username) (.lit (.s u)))
          (.cmp (.col .password) (.lit (.s h))))) from rfl, ok_bind]
  simp [ht, evalCond, evalExpr, valEq]

theorem exec_getq (db : DB) (i : Int) (ht : db.tableExists = true) :
    execSQL db (getQuery i)
      = .ok (db, db.rows.filter (fun r => decide ((r.id : Int) = i))) := by
  unfold execSQL getQuery
  rw [tokenize_getq i, ok_bind]
  by_cases hneg : i < 0
  · rw [if_pos hneg]
    rw [show checkSingle ([Tok.ident "SELECT", .star, .ident "FROM",
        .ident "users", .ident "WHERE", .ident "id", .eq]
        ++ [Tok.minus, .num (-i).toNat])
      = .ok ([Tok.ident "SELECT", .star, .ident "FROM", .ident "users",
        .ident "WHERE", .ident "id", .eq, .minus, .num (-i).toNat]) from rfl,
      ok_bind]
    rw [show parseStmt [Tok.ident "SELECT", .star, .ident "FROM", .ident "users",
        .ident "WHERE", .ident "id", .eq, .minus, .num (-i).toNat]
      = .ok (.selectAll (.cmp (.col .id) (.lit (.i (-((-i).toNat : Int))))))
      from rfl, ok_bind]
    have hcast : Val.i (-((-i).toNat : Int)) = Val.i i := by
      rw [Int.toNat_of_nonneg (by omega)]
      norm_num
    rw [hcast]
    simp [ht, evalCond, evalExpr, valEq]
  · rw [if_neg hneg]
    rw [show checkSingle ([Tok.ident "SELECT", .star, .ident "FROM",
        .ident "users", .ident "WHERE", .ident "id", .eq] ++ [Tok.num i.toNat])
      = .ok ([Tok.ident "SELECT", .star, .ident "FROM", .ident "users",
        .ident "WHERE", .ident "id", .eq, .num i.toNat]) from rfl, ok_bind]
    rw [show parseStmt [Tok.ident "SELECT", .star, .ident "FROM", .ident "users",
        .ident "WHERE", .ident "id", .eq, .num i.toNat]
      = .ok (.selectAll (.cmp (.col .id) (.lit (.i (i.toNat : Int)))))
      from rfl, ok_bind]
    have hcast : Val.i ((i.toNat : Int)) = Val.i i := by
      rw [Int.toNat_of_nonneg (by omega)]
    rw [hcast]
    simp [ht, evalCond, evalExpr, valEq]

/-! ### Evaluating the methods on quote-free inputs -/

theorem create_user_ok (db : DB) (u p e : String) (hu : noQuote u)
    (he : noQuote e) (ht : db.tableExists = true) :
    UserManager.create_user db u p e
      = (true, [], { db with rows := db.rows ++ [⟨newId db, u, md5hex p, e⟩] }) := by
  unfold UserManager.create_user
  simp only [exec_insert db u (md5hex p) e hu (md5hex_noQuote p) he ht]

theorem authenticate_eval (db : DB) (u p : String) (hu : noQuote u)
    (ht : db.tableExists = true) :
    UserManager.authenticate db u p
      = .ok ((db.rows.filter (fun r => decide (r.username = u)
          && decide (r.password = md5hex p))).head?.isSome, db) := by
  unfold UserManager.authenticate
  simp only [exec_auth db u (md5hex p) hu (md5hex_noQuote p) ht, ok_bind]

theorem get_user_data_eval (db : DB) (i : Int) (ht : db.tableExists = true) :
    UserManager.get_user_data db i
      = .ok ((db.rows.filter (fun r => decide ((r.id : Int) = i))).head?, db) := by
  unfold UserManager.get_user_data
  simp only [exec_getq db i ht, ok_bind]

/-! ### Supporting lemmas for the claims -/

theorem filter_head_isSome_iff {α : Type} (l : List α) (f : α → Bool) :
    ((l.filter f).head?.isSome = true) ↔ ∃ x ∈ l, f x = true := by
  rw [List.head?_isSome, ne_eq, List.filter_eq_nil_iff]
  simp

theorem foldl_max_le_init (l : List Row) : ∀ a : Nat,
    a ≤ l.foldl (fun m r => max m r.id) a := by
  induction l with
  | nil => intro a; simp
  | cons x t ih =>
    intro a
    calc a ≤ max a x.id := Nat.le_max_left _ _
      _ ≤ t.foldl (fun m r => max m r.id) (max a x.id) := ih _
      _ = (x :: t).foldl (fun m r => max m r.id) a := rfl

theorem mem_id_le_foldl {l : List Row} {r : Row} (h : r ∈ l) : ∀ a : Nat,
    r.id ≤ l.foldl (fun m r => max m r.id) a := by
  induction l with
  | nil => cases h
  | cons x t ih =>
    intro a
    rcases List.mem_cons.mp h with rfl | hmem
    · calc r.id ≤ max a r.id := Nat.le_max_right _ _
        _ ≤ t.foldl (fun m r => max m r.id) (max a r.id) := foldl_max_le_init t _
    · exact ih hmem _

theorem mem_id_lt_newId {db : DB} {r : Row} (h : r ∈ db.rows) : r.id < newId db :=
  Nat.lt_succ_of_le (mem_id_le_foldl h 0)

/-- Looking up the freshly assigned identifier finds exactly the new record. -/
theorem lookup_newId (db : DB) (row : Row) (hid : row.id = newId db) :
    (db.rows ++ [row]).filter
        (fun r => decide ((r.id : Int) = ((newId db : Nat) : Int))) = [row] := by
  rw [List.filter_append]
  have h1 : db.rows.filter
      (fun r => decide ((r.id : Int) = ((newId db : Nat) : Int))) = [] := by
    rw [List.filter_eq_nil_iff]
    intro r hr
    have hlt := mem_id_lt_newId hr
    simp only [decide_eq_true_eq]
    omega
  rw [h1]
  simp [hid]

/-! Head-keyword decompositions of the three query builders. -/

theorem createQuery_split (u h e : String) :
    createQuery u h e = "INSERT "
      ++ ("INTO users (username, password, email) VALUES ("
        ++ quoted u ++ ", " ++ quoted h ++ ", " ++ quoted e ++ ")") := by
  apply String.ext
  simp [createQuery, List.append_assoc]

theorem authQuery_split (u h : String) :
    authQuery u h = "SELECT "
      ++ ("* FROM users WHERE username = " ++ quoted u
        ++ " AND password = " ++ quoted h) := by
  apply String.ext
  simp [authQuery, List.append_assoc]

theorem getQuery_split (i : Int) :
    getQuery i = "SELECT " ++ ("* FROM users WHERE id = " ++ intRepr i) := by
  apply String.ext
  simp [getQuery, List.append_assoc]

/-- Either `create_user` reports the storage error and leaves the store alone,
or appends exactly one record. -/
theorem create_user_dichotomy (db : DB) (u p e : String) :
    (∃ er, execSQL db (createQuery u (md5hex p) e) = .error er
      ∧ UserManager.create_user db u p e
        = (false, [⟨OutStream.stdout, "Database error: " ++ errText er⟩], db))
    ∨ (∃ db2 out, execSQL db (createQuery u (md5hex p) e) = .ok (db2, out)
      ∧ UserManager.create_user db u p e = (true, [], db2)
      ∧ db2.tableExists = db.tableExists
      ∧ ∃ added, db2.rows = db.rows ++ added) := by
  simp only [UserManager.create_user]
  cases hq : execSQL db (createQuery u (md5hex p) e) with
  | error er => exact Or.inl ⟨er, rfl, rfl⟩
  | ok pr =>
    obtain ⟨db2, out⟩ := pr
    have hq2 := hq
    rw [createQuery_split] at hq2
    obtain ⟨hte, added, hrows⟩ := execSQL_insert_frame hq2
    exact Or.inr ⟨db2, out, rfl, rfl, hte, added, hrows⟩

theorem authenticate_frame {db : DB} {u p : String} {b : Bool} {db2 : DB}
    (h : UserManager.authenticate db u p = .ok (b, db2)) : db2 = db := by
  simp only [UserManager.authenticate] at h
  obtain ⟨⟨dbx, rows⟩, hq, h2⟩ := bind_ok_shape h
  simp only at h2
  have hdb : dbx = db2 := by
    have := Except.ok.inj h2
    exact congrArg Prod.snd this
  rw [authQuery_split] at hq
  rw [← hdb]
  exact execSQL_select_frame hq

theorem get_user_data_frame {db : DB} {i : Int} {ro : Option Row} {db2 : DB}
    (h : UserManager.get_user_data db i = .ok (ro, db2)) : db2 = db := by
  simp only [UserManager.get_user_data] at h
  obtain ⟨⟨dbx, rows⟩, hq, h2⟩ := bind_ok_shape h
  simp only at h2
  have hdb : dbx = db2 := by
    have := Except.ok.inj h2
    exact congrArg Prod.snd this
  rw [getQuery_split] at hq
  rw [← hdb]
  exact execSQL_select_frame hq

/-- Splitting at `;` leaves a semicolon-free character list whole. -/
theorem splitSemis_no_semi : ∀ l : List Char, (∀ c ∈ l, c ≠ ';') →
    splitSemis l = [l] := by
  intro l
  induction l with
  | nil => intro _; rfl
  | cons c t ih =>
    intro h
    have ht : splitSemis t = [t] := ih (fun x hx => h x (by simp [hx]))
    have hc : ¬(c = ';') := h c (by simp)
    show List.foldr _ [[]] (c :: t) = _
    rw [List.foldr_cons]
    have : List.foldr _ [[]] t = splitSemis t := rfl
    rw [this, ht]
    simp [hc]

/-- Running one call neither reads nor writes the secret-key component. -/
theorem runOp_key (s : ModuleState) (k : String) (op : Op) :
    runOp { s with secret_key := k } op
      = ({ (runOp s op).1 with secret_key := k }, (runOp s op).2) := by
  cases op with
  | create u p e => simp [runOp]
  | auth u p =>
    cases hq : UserManager.authenticate s.db u p with
    | ok pr => obtain ⟨b, db2⟩ := pr; simp [runOp, hq]
    | error e => simp [runOp, hq]
  | getData i =>
    cases hq : UserManager.get_user_data s.db i with
    | ok pr => obtain ⟨r, db2⟩ := pr; simp [runOp, hq]
    | error e => simp [runOp, hq]
  | execCmd c => simp [runOp]
  | incr => simp [runOp]

theorem run_key (ops : List Op) : ∀ (s : ModuleState) (k : String),
    run { s with secret_key := k } ops
      = ({ (run s ops).1 with secret_key := k }, (run s ops).2) := by
  induction ops with
  | nil => intro s k; rfl
  | cons op ops ih =>
    intro s k
    show ((run (runOp { s with secret_key := k } op).1 ops).1,
      (runOp { s with secret_key := k } op).2
        :: (run (runOp { s with secret_key := k } op).1 ops).2) = _
    rw [runOp_key s k op, ih (runOp s op).1 k]
    rfl

/-- Iterating the counter from an arbitrary state. -/
theorem run_incr (n : Nat) : ∀ s : ModuleState,
    run s (List.replicate n .incr)
      = ({ s with global_counter := s.global_counter + n },
         (List.range' (s.global_counter + 1) n).map Obs.counted) := by
  induction n with
  | zero => intro s; simp [run, List.range']
  | succ n ih =>
    intro s
    rw [List.replicate_succ]
    show ((run (runOp s .incr).1 _).1,
      (runOp s .incr).2 :: (run (runOp s .incr).1 _).2) = _
    have h1 : runOp s .incr
        = ({ s with global_counter := s.global_counter + 1 },
           .counted (s.global_counter + 1)) := rfl
    rw [h1, ih]
    simp [List.range'_succ]
    omega

/-! ### The claims -/

/-- C1, counterexample: after creating the same user twice (usernames are not
unique), two stored records match `("alice", md5("pw123"))`, yet `authenticate`
returns true — so "true iff exactly one matching record exists" fails. -/
theorem c1_counterexample :
    ¬((UserManager.authenticate db_alice2 "alice" "pw123"
        = .ok (true, db_alice2))
      ↔ (db_alice2.rows.filter (fun r => decide (r.username = "alice")
          && decide (r.password = md5hex "pw123"))).length = 1) := by decide

/-- C1 (amended): for any store state and quote-free username, `authenticate`
returns true iff AT LEAST ONE stored record carries the username and the MD5
of the password. -/
theorem c1_authenticate_iff_at_least_one (db : DB) (u p : String)
    (hu : noQuote u) (ht : db.tableExists = true) :
    UserManager.authenticate db u p = .ok (true, db)
      ↔ ∃ r ∈ db.rows, r.username = u ∧ r.password = md5hex p := by
  rw [authenticate_eval db u p hu ht]
  constructor
  · intro h
    have hb : (db.rows.filter (fun r => decide (r.username = u)
        && decide (r.password = md5hex p))).head?.isSome = true :=
      congrArg Prod.fst (Except.ok.inj h)
    obtain ⟨r, hr, hf⟩ := (filter_head_isSome_iff _ _).mp hb
    simp only [Bool.and_eq_true, decide_eq_true_eq] at hf
    exact ⟨r, hr, hf.1, hf.2⟩
  · rintro ⟨r, hr, hu2, hp2⟩
    have hb := (filter_head_isSome_iff db.rows
      (fun r => decide (r.username = u) && decide (r.password = md5hex p))).mpr
      ⟨r, hr, by simp [hu2, hp2]⟩
    rw [hb]

/-- C1, witness at the spec's concrete scenario. -/
theorem c1_witness :
    noQuote "alice" ∧ db_alice.tableExists = true
    ∧ (UserManager.authenticate db_alice "alice" "pw123" = .ok (true, db_alice)
      ↔ ∃ r ∈ db_alice.rows, r.username = "alice"
          ∧ r.password = md5hex "pw123") :=
  ⟨by decide, by decide,
   c1_authenticate_iff_at_least_one db_alice "alice" "pw123" (by decide)
     (by decide)⟩

/-- C2, counterexample: on a failing insert (`O'Brien` breaks the statement),
the error report goes to STANDARD OUTPUT (`print`), not standard error. -/
theorem c2_counterexample :
    UserManager.create_user UserManager.init obrien "pw123" "o@x.com"
      = (false,
         [⟨OutStream.stdout, "Database error: " ++ errText .parseErr⟩],
         UserManager.init)
    ∧ OutStream.stdout ≠ OutStream.stderr := by decide

/-- C2 (amended): whenever `create_user` reports failure, the storage call
raised, the raw exception text was printed to STANDARD OUTPUT, and the caller
got `false`. -/
theorem c2_failure_prints_stdout_returns_false (db : DB) (u p e : String)
    (hf : (UserManager.create_user db u p e).1 = false) :
    ∃ er, execSQL db (createQuery u (md5hex p) e) = .error er
      ∧ UserManager.create_user db u p e
        = (false, [⟨OutStream.stdout, "Database error: " ++ errText er⟩], db) := by
  rcases create_user_dichotomy db u p e with ⟨er, herr, hres⟩ |
    ⟨db2, out, _, hres, _, _⟩
  · exact ⟨er, herr, hres⟩
  · rw [hres] at hf
    simp at hf

/-- C2, witness at the failing `O'Brien` input. -/
theorem c2_witness :
    ∃ er, execSQL UserManager.init (createQuery obrien (md5hex "pw123")
        "o@x.com") = .error er
      ∧ UserManager.create_user UserManager.init obrien "pw123" "o@x.com"
        = (false,
           [⟨OutStream.stdout, "Database error: " ++ errText er⟩],
           UserManager.init) :=
  c2_failure_prints_stdout_returns_false UserManager.init obrien "pw123"
    "o@x.com" (by decide)

/-- C3, counterexample: with the injection-shaped username the create succeeds,
but the created record's username field is `"x"`, not the input — the
round-trip property fails on the unvalidated input space. -/
theorem c3_counterexample :
    (UserManager.create_user UserManager.init injU "pw123" "a@x.com").1 = true
    ∧ UserManager.get_user_data db_inj 1 = .ok (some ⟨1, "x", "y", "z"⟩, db_inj)
    ∧ ("x" : String) ≠ injU := by decide

/-- C3 (amended): for quote-free username and email, create-then-get on the
assigned identifier returns the record with the input username and email, and a
credential equal to the 32-character MD5 hex digest — in particular different
from any plaintext password whose length is not 32. -/
theorem c3_create_then_get_roundtrip (db : DB) (u p e : String) (hu : noQuote u)
    (he : noQuote e) (ht : db.tableExists = true) :
    (UserManager.create_user db u p e).1 = true
    ∧ UserManager.get_user_data (UserManager.create_user db u p e).2.2
        ((newId db : Nat) : Int)
      = .ok (some ⟨newId db, u, md5hex p, e⟩,
          (UserManager.create_user db u p e).2.2)
    ∧ (md5hex p).length = 32
    ∧ (p.length ≠ 32 → md5hex p ≠ p) := by
  have hc := create_user_ok db u p e hu he ht
  refine ⟨by rw [hc], ?_, md5hex_length p, fun hl => md5hex_ne_of_length hl⟩
  have h2 : (UserManager.create_user db u p e).2.2
      = { db with rows := db.rows ++ [⟨newId db, u, md5hex p, e⟩] } := by
    rw [hc]
  rw [h2]
  rw [get_user_data_eval { db with rows := db.rows ++ [⟨newId db, u, md5hex p, e⟩] }
    ((newId db : Nat) : Int) ht]
  rw [show ({ db with rows := db.rows ++ [⟨newId db, u, md5hex p, e⟩] } :
      DB).rows = db.rows ++ [⟨newId db, u, md5hex p, e⟩] from rfl]
  rw [lookup_newId db ⟨newId db, u, md5hex p, e⟩ rfl]
  rfl

/-- C3, witness at the spec's concrete scenario. -/
theorem c3_witness :
    (UserManager.create_user UserManager.init "alice" "pw123" "a@x.com").1 = true
    ∧ UserManager.get_user_data
        (UserManager.create_user UserManager.init "alice" "pw123"
          "a@x.com").2.2 ((newId UserManager.init : Nat) : Int)
      = .ok (some ⟨newId UserManager.init, "alice", md5hex "pw123", "a@x.com"⟩,
          (UserManager.create_user UserManager.init "alice" "pw123"
            "a@x.com").2.2)
    ∧ (md5hex "pw123").length = 32
    ∧ ("pw123".length ≠ 32 → md5hex "pw123" ≠ "pw123") :=
  c3_create_then_get_roundtrip UserManager.init "alice" "pw123" "a@x.com"
    (by decide) (by decide) (by decide)

/-- C4, counterexample (negation of the claim): the digest has finite range, so
some two distinct passwords collide; creating a user with one and
authenticating with the other succeeds.  Hence "authenticate(username, q)
returns false for every q ≠ p" is false. -/
theorem c4_counterexample :
    ∃ p q : String, q ≠ p
      ∧ (UserManager.create_user UserManager.init "alice" p "a@x.com").1 = true
      ∧ UserManager.authenticate
          (UserManager.create_user UserManager.init "alice" p "a@x.com").2.2
          "alice" q
        = .ok (true,
            (UserManager.create_user UserManager.init "alice" p
              "a@x.com").2.2) := by
  obtain ⟨a, b, hne, heq⟩ := md5_collision
  have hu : noQuote "alice" := by decide
  have he : noQuote "a@x.com" := by decide
  have hc := create_user_ok UserManager.init "alice" a "a@x.com" hu he (by decide)
  have h2 : (UserManager.create_user UserManager.init "alice" a "a@x.com").2.2
      = { UserManager.init with rows := UserManager.init.rows
          ++ [⟨newId UserManager.init, "alice", md5hex a, "a@x.com"⟩] } := by
    rw [hc]
  refine ⟨a, b, fun hqp => hne hqp.symm, by rw [hc], ?_⟩
  rw [h2, authenticate_eval { UserManager.init with rows := UserManager.init.rows
      ++ [⟨newId UserManager.init, "alice", md5hex a, "a@x.com"⟩] }
    "alice" b hu rfl]
  have hrows : ({ UserManager.init with rows := UserManager.init.rows
      ++ [⟨newId UserManager.init, "alice", md5hex a, "a@x.com"⟩] } : DB).rows
      = [⟨newId UserManager.init, "alice", md5hex a, "a@x.com"⟩] := rfl
  rw [hrows]
  simp [← heq]

/-- C4 (amended): on any initialized store, after creating a user (quote-free
username and email) with password `p`, authentication with `q` fails whenever
`q`'s MD5 digest differs from `p`'s and from the password field of every record
with that username already in the store (usernames are not unique, so an older
same-named record could otherwise still match). -/
theorem c4_wrong_password_auth_false (db : DB) (u p e q : String)
    (hu : noQuote u) (he : noQuote e) (ht : db.tableExists = true)
    (hne : md5hex q ≠ md5hex p)
    (hold : ∀ r ∈ db.rows, r.username = u → r.password ≠ md5hex q) :
    UserManager.authenticate (UserManager.create_user db u p e).2.2 u q
      = .ok (false, (UserManager.create_user db u p e).2.2) := by
  have hc := create_user_ok db u p e hu he ht
  have h2 : (UserManager.create_user db u p e).2.2
      = { db with rows := db.rows ++ [⟨newId db, u, md5hex p, e⟩] } := by
    rw [hc]
  rw [h2, authenticate_eval { db with rows := db.rows
      ++ [⟨newId db, u, md5hex p, e⟩] } u q hu ht]
  have hfil : (db.rows ++ [(⟨newId db, u, md5hex p, e⟩ : Row)]).filter
      (fun r => decide (r.username = u) && decide (r.password = md5hex q))
      = [] := by
    rw [List.filter_eq_nil_iff]
    intro r hr
    simp only [Bool.and_eq_true, decide_eq_true_eq, not_and]
    rcases List.mem_append.mp hr with h1 | h1
    · exact fun hru hpw => hold r h1 hru hpw
    · rcases h1 with _ | ⟨_, h2⟩
      · exact fun _ hpw => hne hpw.symm
      · cases h2
  rw [show ({ db with rows := db.rows ++ [⟨newId db, u, md5hex p, e⟩]} :
      DB).rows = db.rows ++ [⟨newId db, u, md5hex p, e⟩] from rfl, hfil]
  rfl

/-- C4, witness: on the store already holding alice/pw123, create a second
alice record with pw125; pw124's digest differs from both stored ones, and
authentication with it fails. -/
theorem c4_witness :
    md5hex "pw124" ≠ md5hex "pw125"
    ∧ (∀ r ∈ db_alice.rows, r.username = "alice" → r.password ≠ md5hex "pw124")
    ∧ UserManager.authenticate
        (UserManager.create_user db_alice "alice" "pw125" "a@x.com").2.2
        "alice" "pw124"
      = .ok (false,
          (UserManager.create_user db_alice "alice" "pw125" "a@x.com").2.2) :=
  ⟨by decide, by decide,
   c4_wrong_password_auth_false db_alice "alice" "pw125" "a@x.com" "pw124"
     (by decide) (by decide) (by decide) (by decide) (by decide)⟩

/-- C5, counterexample: a `;` in the command runner's input makes the shell
execute a second, unintended command; the executed list is not the single
intended `echo`. -/
theorem c5_counterexample :
    shellCommands (execute_system_command "hi; touch pwned")
      = ["echo hi", " touch pwned"]
    ∧ shellCommands (execute_system_command "hi; touch pwned")
      ≠ ["echo " ++ "hi; touch pwned"] := by decide

/-- C5 (amended): `create_user` never alters the schema (for every input, also
injection-shaped ones), and the command runner executes exactly the one
intended `echo` only when the input is free of shell metacharacters. -/
theorem c5_schema_preserved_and_clean_command (db : DB) (u p e input : String)
    (hm : noShellMeta input) :
    (UserManager.create_user db u p e).2.2.tableExists = db.tableExists
    ∧ shellCommands (execute_system_command input) = ["echo " ++ input] := by
  constructor
  · rcases create_user_dichotomy db u p e with ⟨er, _, hres⟩ |
      ⟨db2, out, _, hres, hte, _⟩
    · rw [hres]
    · rw [hres]
      exact hte
  · have hnosemi : ∀ c ∈ ("echo " ++ input).data, c ≠ ';' := by
      intro c hc
      rw [String.data_append] at hc
      rcases List.mem_append.mp hc with h1 | h1
      · have h2 : c ∈ ['e', 'c', 'h', 'o', ' '] := h1
        simp only [List.mem_cons, List.not_mem_nil, or_false] at h2
        rcases h2 with rfl | rfl | rfl | rfl | rfl <;> decide
      · intro hsemi
        exact hm c h1 (by rw [hsemi]; simp [shellMeta])
    show (splitSemis ("echo " ++ input).data).map _ = _
    rw [splitSemis_no_semi _ hnosemi]
    show [(⟨("echo " ++ input).data⟩ : String)] = _
    rw [string_eta]

/-- C5, witness at a metacharacter-free input. -/
theorem c5_witness :
    noShellMeta "hello"
    ∧ (UserManager.create_user db_alice "bob" "pw" "b@x.com").2.2.tableExists
        = db_alice.tableExists
    ∧ shellCommands (execute_system_command "hello") = ["echo hello"] :=
  ⟨by decide,
   (c5_schema_preserved_and_clean_command db_alice "bob" "pw" "b@x.com" "hello"
     (by decide)).1,
   (c5_schema_preserved_and_clean_command db_alice "bob" "pw" "b@x.com" "hello"
     (by decide)).2⟩

/-- C6: on an initialized store, `get_user_data` with an identifier matching no
record returns the absent value, raising no error. -/
theorem c6_get_user_data_absent (db : DB) (i : Int) (ht : db.tableExists = true)
    (hno : ∀ r ∈ db.rows, (r.id : Int) ≠ i) :
    UserManager.get_user_data db i = .ok (none, db) := by
  rw [get_user_data_eval db i ht]
  have hfil : db.rows.filter (fun r => decide ((r.id : Int) = i)) = [] := by
    rw [List.filter_eq_nil_iff]
    intro r hr
    simpa using hno r hr
  rw [hfil]
  rfl

/-- C6, witness: identifier 99 matches nothing in the one-record store. -/
theorem c6_witness :
    db_alice.tableExists = true ∧ (∀ r ∈ db_alice.rows, (r.id : Int) ≠ 99)
    ∧ UserManager.get_user_data db_alice 99 = .ok (none, db_alice) :=
  ⟨by decide, by decide,
   c6_get_user_data_absent db_alice 99 (by decide) (by decide)⟩

/-- C7, counterexample: the multi-row `VALUES` injection makes one
`create_user` call insert TWO records (sqlite accepts
`VALUES ('a','h','e'),('b', ..., ...)`), so "createUser only adds a new
record" fails — though both additions are appends and no stored record is
touched. -/
theorem c7_counterexample :
    (UserManager.create_user UserManager.init injU2 "pw123" "b@x.com").1 = true
    ∧ (UserManager.create_user UserManager.init injU2 "pw123" "b@x.com").2.2.rows
        = [⟨1, "a", "h", "e"⟩, ⟨2, "b", md5hex "pw123", "b@x.com"⟩]
    ∧ (UserManager.create_user UserManager.init injU2 "pw123"
        "b@x.com").2.2.rows.length = UserManager.init.rows.length + 2 := by
  decide

/-- C7 (amended): `authenticate` and `get_user_data` never change the stored
table; `create_user` preserves the schema and only ever appends records —
exactly one for quote-free username and email, possibly several for
injection-shaped inputs — leaving every previously stored record intact. -/
theorem c7_frame (db : DB) (u p e : String) (i : Int) :
    (∀ b db2, UserManager.authenticate db u p = .ok (b, db2) → db2 = db)
    ∧ (∀ ro db2, UserManager.get_user_data db i = .ok (ro, db2) → db2 = db)
    ∧ (UserManager.create_user db u p e).2.2.tableExists = db.tableExists
    ∧ (∃ added, (UserManager.create_user db u p e).2.2.rows = db.rows ++ added)
    ∧ (noQuote u → noQuote e → db.tableExists = true →
        (UserManager.create_user db u p e).2.2.rows
          = db.rows ++ [⟨newId db, u, md5hex p, e⟩]) := by
  refine ⟨fun b db2 h => authenticate_frame h,
    fun ro db2 h => get_user_data_frame h, ?_, ?_, ?_⟩
  · rcases create_user_dichotomy db u p e with ⟨er, _, hres⟩ |
      ⟨db2, out, _, hres, hte, _⟩
    · rw [hres]
    · rw [hres]
      exact hte
  · rcases create_user_dichotomy db u p e with ⟨er, _, hres⟩ |
      ⟨db2, out, _, hres, _, added, hrows⟩
    · rw [hres]
      exact ⟨[], by simp⟩
    · rw [hres]
      exact ⟨added, hrows⟩
  · intro hu he ht
    rw [create_user_ok db u p e hu he ht]

/-- C7, witness: the frame property applied at concrete calls. -/
theorem c7_witness :
    UserManager.authenticate db_alice "alice" "pw123" = .ok (true, db_alice)
    ∧ db_alice = db_alice
    ∧ (UserManager.create_user db_alice "bob" "pw9" "b@x.com").2.2.rows
        = db_alice.rows ++ [⟨newId db_alice, "bob", md5hex "pw9", "b@x.com"⟩] :=
  ⟨by decide,
   (c7_frame db_alice "alice" "pw123" "a@x.com" 1).1 true db_alice (by decide),
   (c7_frame db_alice "bob" "pw9" "b@x.com" 1).2.2.2.2 (by decide) (by decide)
     (by decide)⟩

/-- C8: the hardcoded `SECRET_KEY` constant is dead — two runs differing only in
its value produce identical observations and identical store/counter evolution,
each preserving its own key. -/
theorem c8_secret_key_unused (k1 k2 : String) (db : DB) (c : Nat)
    (ops : List Op) :
    (run ⟨k1, db, c⟩ ops).2 = (run ⟨k2, db, c⟩ ops).2
    ∧ (run ⟨k1, db, c⟩ ops).1.db = (run ⟨k2, db, c⟩ ops).1.db
    ∧ (run ⟨k1, db, c⟩ ops).1.global_counter
        = (run ⟨k2, db, c⟩ ops).1.global_counter
    ∧ (run ⟨k1, db, c⟩ ops).1.secret_key = k1
    ∧ (run ⟨k2, db, c⟩ ops).1.secret_key = k2 := by
  have h1 : run ⟨k1, db, c⟩ ops
      = ({ (run ⟨k2, db, c⟩ ops).1 with secret_key := k1 },
         (run ⟨k2, db, c⟩ ops).2) :=
    run_key ops ⟨k2, db, c⟩ k1
  have h2 : run ⟨k2, db, c⟩ ops
      = ({ (run ⟨k2, db, c⟩ ops).1 with secret_key := k2 },
         (run ⟨k2, db, c⟩ ops).2) :=
    run_key ops ⟨k2, db, c⟩ k2
  refine ⟨by rw [h1], by rw [h1], by rw [h1], by rw [h1], ?_⟩
  conv_lhs => rw [h2]

/-- C9: each call to `increment_counter` bumps the global counter by one and
returns the new value; starting from the freshly loaded module, `n` calls leave
the counter at `n` and the k-th call returns k (the observations are
`[1, 2, ..., n]`). -/
theorem c9_increment_counter :
    (∀ s : ModuleState, runOp s .incr
        = ({ s with global_counter := s.global_counter + 1 },
           .counted (s.global_counter + 1)))
    ∧ ∀ n : Nat,
        (run initialState (List.replicate n .incr)).1.global_counter = n
        ∧ (run initialState (List.replicate n .incr)).2
            = (List.range' 1 n).map Obs.counted := by
  refine ⟨fun s => rfl, fun n => ?_⟩
  rw [run_incr n initialState]
  refine ⟨?_, ?_⟩
  · show 0 + n = n
    omega
  · show List.map _ (List.range' (0 + 1) n) = _
    norm_num

/-- C10: `create_user` is total after hashing (it returns a boolean instead of
raising), a storage failure always surfaces as `false`, and a `false` return
means the store is exactly as before the call. -/
theorem c10_create_user_atomic (db : DB) (u p e : String) :
    ((∃ er, execSQL db (createQuery u (md5hex p) e) = .error er) →
      (UserManager.create_user db u p e).1 = false)
    ∧ ((UserManager.create_user db u p e).1 = false →
      (UserManager.create_user db u p e).2.2 = db) := by
  rcases create_user_dichotomy db u p e with ⟨er, herr, hres⟩ |
    ⟨db2, out, hexec, hres, _, _⟩
  · exact ⟨fun _ => by rw [hres], fun _ => by rw [hres]⟩
  · constructor
    · rintro ⟨er2, h2⟩
      rw [hexec] at h2
      exact Except.noConfusion h2
    · intro hf
      rw [hres] at hf
      simp at hf

/-- C10, witness at the failing `O'Brien` input. -/
theorem c10_witness :
    (∃ er, execSQL UserManager.init (createQuery obrien (md5hex "pw123")
        "o@x.com") = .error er)
    ∧ (UserManager.create_user UserManager.init obrien "pw123" "o@x.com").1
        = false
    ∧ (UserManager.create_user UserManager.init obrien "pw123" "o@x.com").2.2
        = UserManager.init :=
  ⟨⟨.parseErr, by decide⟩,
   (c10_create_user_atomic UserManager.init obrien "pw123" "o@x.com").1
     ⟨.parseErr, by decide⟩,
   (c10_create_user_atomic UserManager.init obrien "pw123" "o@x.com").2
     ((c10_create_user_atomic UserManager.init obrien "pw123" "o@x.com").1
       ⟨.parseErr, by decide⟩)⟩

end UserAuth
